import Mathlib

/-!
Shallow embedding of the VRM/GLTF/GLB viewer (`src/main.cpp`) for verifying
its specification.

Modelling conventions:
* `float` values are idealized as real numbers (`ℝ`); `sqrtf` becomes
  `Real.sqrt`.  Float literals such as `0.002f`, `0.1f`, `0.001f`, `0.0001f`,
  `1e10f` are taken at their exact decimal values.
* GPU handles (`sg_buffer`, `sg_image`, `sg_view`) are natural-number ids.
  Fresh handles are allocated from a `nextId` counter threaded through the
  state (sokol guarantees fresh handles never collide with live ones; we
  capture that with a `default_texture < nextId` hypothesis where needed).
* A GPU buffer is represented by its handle together with its uploaded
  contents, so `RenderMesh` carries the baked vertex list and index list
  that `sg_make_buffer` received.
* The cgltf asset (the result of `cgltf_parse_file` + `cgltf_load_buffers`)
  is an input value: an `Asset` holding, per node, the world matrix that
  `cgltf_node_transform_world` would produce, and per primitive the accessor
  contents.  `cgltf_accessor_read_float` out-of-range reads leave the
  destination at its initializer, which we model with `List.getD` and the
  same defaults as the code.  Parse / buffer-load failure of the external
  cgltf library is modelled by the `ParseOutcome` input.
* Image decoding by stb_image is external; each `Image` input carries
  whether its decode succeeds.  On success `sg_make_image` yields a fresh
  handle; on failure the code returns `state.default_texture`.
* `sg_destroy_buffer` / `sg_destroy_image` / `sg_destroy_view` calls are
  recorded in explicit "destroyed handle" lists returned by `load_model`
  and `cleanup`.
-/

namespace VRMViewer

/-- Three-component float vector (`HMM_Vec3`, and `float[3]` arrays). -/
structure V3 where
  x : ℝ
  y : ℝ
  z : ℝ
deriving Inhabited

/-- Four-component float vector (`HMM_Vec4`). -/
structure V4 where
  x : ℝ
  y : ℝ
  z : ℝ
  w : ℝ
deriving Inhabited

/-- Column-major 4x4 matrix as the flat `float node_matrix[16]` array that
`cgltf_node_transform_world` fills; field `eK` is `node_matrix[K]`. -/
structure Mat4 where
  e0 : ℝ
  e1 : ℝ
  e2 : ℝ
  e3 : ℝ
  e4 : ℝ
  e5 : ℝ
  e6 : ℝ
  e7 : ℝ
  e8 : ℝ
  e9 : ℝ
  e10 : ℝ
  e11 : ℝ
  e12 : ℝ
  e13 : ℝ
  e14 : ℝ
  e15 : ℝ
deriving Inhabited

/-- Identity matrix value, used for concrete test inputs. -/
def idMat : Mat4 :=
  ⟨1, 0, 0, 0, 0, 1, 0, 0, 0, 0, 1, 0, 0, 0, 0, 1⟩

/-- Full affine transform of a position by the node matrix
(main.cpp lines 469-471). -/
def transform_point (m : Mat4) (p : V3) : V3 :=
  ⟨m.e0 * p.x + m.e4 * p.y + m.e8 * p.z + m.e12,
   m.e1 * p.x + m.e5 * p.y + m.e9 * p.z + m.e13,
   m.e2 * p.x + m.e6 * p.y + m.e10 * p.z + m.e14⟩

/-- Upper 3x3 block applied to a direction, no translation
(main.cpp lines 493-495). -/
def transform_dir (m : Mat4) (v : V3) : V3 :=
  ⟨m.e0 * v.x + m.e4 * v.y + m.e8 * v.z,
   m.e1 * v.x + m.e5 * v.y + m.e9 * v.z,
   m.e2 * v.x + m.e6 * v.y + m.e10 * v.z⟩

/-- Length of a vector, `HMM_LenV3` (sqrt of the dot product). -/
noncomputable def lenV3 (v : V3) : ℝ :=
  Real.sqrt (v.x * v.x + v.y * v.y + v.z * v.z)

/-- The canonical up vector `(0,1,0)` used as the fallback normal. -/
def upV3 : V3 := ⟨0, 1, 0⟩

/-- Normal transform with renormalization (main.cpp lines 492-505):
apply the upper 3x3 block, then divide by the length when it exceeds
`0.0001f`, otherwise substitute `(0,1,0)`. -/
noncomputable def transform_normal (m : Mat4) (v : V3) : V3 :=
  let n := transform_dir m v
  let len := lenV3 n
  if 1/10000 < len then ⟨n.x / len, n.y / len, n.z / len⟩ else upV3

/-- One baked vertex (struct `Vertex`): world-space position, normal, uv. -/
structure Vertex where
  pos : V3
  normal : V3
  uv : ℝ × ℝ
deriving Inhabited

/-- One baked vertex at index `vi` (main.cpp lines 463-528).  The defaults
`{0,0,0}`, `{0,1,0}`, `{0,0}` are the local-array initializers that survive
when `cgltf_accessor_read_float` cannot read index `vi`. -/
noncomputable def bake_vertex (m : Mat4) (posL : List V3)
    (normAcc : Option (List V3)) (uvAcc : Option (List (ℝ × ℝ)))
    (vi : Nat) : Vertex :=
  { pos := transform_point m (posL.getD vi ⟨0, 0, 0⟩)
    normal :=
      match normAcc with
      | some ns => transform_normal m (ns.getD vi upV3)
      | none => upV3
    uv :=
      match uvAcc with
      | some uvs => uvs.getD vi (0, 0)
      | none => (0, 0) }

/-- The full baked vertex array of a primitive with `posL.length` vertices. -/
noncomputable def bake_vertices (m : Mat4) (posL : List V3)
    (normAcc : Option (List V3)) (uvAcc : Option (List (ℝ × ℝ))) :
    List Vertex :=
  (List.range posL.length).map (bake_vertex m posL normAcc uvAcc)

/-- Struct `RenderMesh`.  Handle fields are ids; `vertices` and
`indices_data` are the contents uploaded to the vertex / index buffer. -/
structure RenderMesh where
  vertex_buffer : Nat
  index_buffer : Nat
  num_indices : Nat
  texture : Nat
  texture_view : Nat
  base_color : V4
  has_indices : Bool
  num_vertices : Nat
  vertices : List Vertex
  indices_data : List Nat
deriving Inhabited

/-- Struct `Model`: mesh list plus derived bounding center and radius. -/
structure Model where
  meshes : List RenderMesh
  center : V3
  radius : ℝ
deriving Inhabited

/-- The mutable global `state` of main.cpp (rendering-pipeline handles that
no claim touches, `pip` and `smp`, are omitted; `nextId` is the fresh-handle
allocator standing in for sokol's handle pool). -/
structure ViewerState where
  default_texture : Nat
  default_texture_view : Nat
  model : Model
  model_loaded : Bool
  cam_distance : ℝ
  cam_azimuth : ℝ
  cam_elevation : ℝ
  cam_target : V3
  mouse_down : Bool
  last_mouse_x : ℝ
  last_mouse_y : ℝ
  time : ℝ
  nextId : Nat
deriving Inhabited

/-- One `cgltf_image` together with the outcome of decoding it:
`embedded` has a buffer view (decoded by `load_texture_from_buffer`),
`external` has a URI (decoded by `load_texture_from_file`), `noSource`
has neither.  The Bool tells whether the stb_image decode succeeds. -/
inductive Image where
  | noSource : Image
  | embedded (decodeOk : Bool) : Image
  | external (decodeOk : Bool) : Image
deriving DecidableEq

/-- Whether an image's decode fails (stb_image returns null pixels). -/
def decode_failed : Image → Bool
  | .noSource => false
  | .embedded ok => !ok
  | .external ok => !ok

/-- Material data used by the loader: `has_pbr_metallic_roughness`, the
base color factor, and the image index of the base color texture when
`pbr->base_color_texture.texture` and its `image` are present. -/
structure Material where
  hasPbr : Bool
  baseColorFactor : V4
  baseColorTexImage : Option Nat

/-- One `cgltf_primitive`: topology flag, the accessor contents selected by
the attribute scan (POSITION, NORMAL, TEXCOORD_0), the index accessor
values (`cgltf_accessor_read_index` results), and the material. -/
structure Primitive where
  isTriangles : Bool
  pos : Option (List V3)
  norm : Option (List V3)
  uv : Option (List (ℝ × ℝ))
  indices : Option (List Nat)
  material : Option Material

/-- One `cgltf_node`: its world matrix (as filled by
`cgltf_node_transform_world`) and the primitives of its mesh, if any. -/
structure Node where
  worldMatrix : Mat4
  mesh : Option (List Primitive)

/-- The parsed asset (`cgltf_data`) after buffers were loaded. -/
structure Asset where
  images : List Image
  nodes : List Node

/-- Outcome of `cgltf_parse_file` followed by `cgltf_load_buffers`. -/
inductive ParseOutcome where
  | parseFail : ParseOutcome
  | bufferFail : ParseOutcome
  | ok (a : Asset) : ParseOutcome

/-- Result of the texture-loading loop (main.cpp lines 393-412): the
`textures` and `texture_views` vectors and the advanced handle counter. -/
structure TexLoad where
  textures : List Nat
  views : List Nat
  nextId : Nat

/-- Loading one image (main.cpp lines 395-412): decode failure and absent
source keep the default texture; a successful decode makes a fresh image
handle; a view is created exactly when the texture id differs from the
default texture id. -/
def load_one (dT dV n : Nat) (img : Image) : Nat × Nat × Nat :=
  let p : Nat × Nat :=
    match img with
    | .noSource => (dT, n)
    | .embedded ok => if ok then (n, n + 1) else (dT, n)
    | .external ok => if ok then (n, n + 1) else (dT, n)
  if p.1 ≠ dT then (p.1, p.2, p.2 + 1) else (p.1, dV, p.2)

/-- The texture-loading loop over all images of the asset. -/
def load_textures (dT dV : Nat) : Nat → List Image → TexLoad
  | n, [] => ⟨[], [], n⟩
  | n, img :: rest =>
    let o := load_one dT dV n img
    let tl := load_textures dT dV o.2.2 rest
    ⟨o.1 :: tl.textures, o.2.1 :: tl.views, tl.nextId⟩

/-- Texture context a primitive is resolved against: the loaded texture and
view arrays and the default handles. -/
structure TexCtx where
  textures : List Nat
  views : List Nat
  dT : Nat
  dV : Nat

/-- Building the `RenderMesh` record for one primitive
(main.cpp lines 530-588): buffers already made (`vbId` and the optional
index buffer `ib` with its 32-bit data), base color and texture resolved
from the material with the `img_idx < textures.size()` guard. -/
def make_mesh (ctx : TexCtx) (prim : Primitive) (verts : List Vertex)
    (vbId nv : Nat) (ib : Option (Nat × List Nat)) : RenderMesh :=
  let base : RenderMesh :=
    { vertex_buffer := vbId
      index_buffer := match ib with | some bi => bi.1 | none => 0
      num_indices := match ib with | some bi => bi.2.length | none => 0
      texture := ctx.dT
      texture_view := ctx.dV
      base_color := ⟨1, 1, 1, 1⟩
      has_indices := ib.isSome
      num_vertices := nv
      vertices := verts
      indices_data := match ib with | some bi => bi.2 | none => [] }
  match prim.material with
  | none => base
  | some mat =>
    if mat.hasPbr then
      let b1 := { base with base_color := mat.baseColorFactor }
      match mat.baseColorTexImage with
      | some idx =>
        if idx < ctx.textures.length then
          { b1 with
              texture := ctx.textures.getD idx ctx.dT
              texture_view := ctx.views.getD idx ctx.dV }
        else b1
      | none => b1
    else base

/-- Running bounding-box accumulation over one transformed position
(main.cpp lines 477-483). -/
noncomputable def update_bounds (b : V3 × V3) (p : V3) : V3 × V3 :=
  (⟨min b.1.x p.x, min b.1.y p.y, min b.1.z p.z⟩,
   ⟨max b.2.x p.x, max b.2.y p.y, max b.2.z p.z⟩)

/-- State threaded through the node/primitive processing loops: current
bounding box, fresh-handle counter, meshes baked so far. -/
structure BakeState where
  minB : V3
  maxB : V3
  nextId : Nat
  meshes : List RenderMesh

/-- Processing one primitive (main.cpp lines 425-591): skip non-triangle
topology and primitives without a position accessor; otherwise bake the
vertices, fold the transformed positions into the bounds, allocate the
vertex buffer (and the index buffer when an index accessor is present,
each index re-emitted as `(uint32_t)`, i.e. reduced mod 2^32), and append
the new `RenderMesh`. -/
noncomputable def process_primitive (ctx : TexCtx) (m : Mat4)
    (st : BakeState) (prim : Primitive) : BakeState :=
  if !prim.isTriangles then st else
  match prim.pos with
  | none => st
  | some posL =>
    let bounds := (posL.map (transform_point m)).foldl update_bounds
      (st.minB, st.maxB)
    let verts := bake_vertices m posL prim.norm prim.uv
    let ib : Option (Nat × List Nat) :=
      match prim.indices with
      | some ixs => some (st.nextId + 1, ixs.map (fun k => k % 2 ^ 32))
      | none => none
    let nid := match prim.indices with
      | some _ => st.nextId + 2
      | none => st.nextId + 1
    { minB := bounds.1
      maxB := bounds.2
      nextId := nid
      meshes := st.meshes ++ [make_mesh ctx prim verts st.nextId posL.length ib] }

/-- Processing one node (main.cpp lines 415-423): nodes without a mesh are
skipped; otherwise every primitive of the mesh is processed. -/
noncomputable def process_node (ctx : TexCtx) (st : BakeState)
    (node : Node) : BakeState :=
  match node.mesh with
  | none => st
  | some prims => prims.foldl (process_primitive ctx node.worldMatrix) st

/-- The sentinel bounding box `(1e10, 1e10, 1e10)` / `(-1e10, -1e10, -1e10)`
(main.cpp lines 389-390) and the whole node-processing loop. -/
noncomputable def bake_nodes (ctx : TexCtx) (n : Nat) (nodes : List Node) :
    BakeState :=
  nodes.foldl (process_node ctx)
    ⟨⟨10 ^ 10, 10 ^ 10, 10 ^ 10⟩, ⟨-(10 ^ 10), -(10 ^ 10), -(10 ^ 10)⟩, n, []⟩

/-- Result of `load_model`: its Bool return value, the updated global
state, and the handles passed to the destroy calls it made. -/
structure LoadResult where
  success : Bool
  state : ViewerState
  destroyedBuffers : List Nat
  destroyedImages : List Nat
  destroyedViews : List Nat

/-- The `load_model` function (main.cpp lines 356-615).  Parse or
buffer-load failure returns `false` with the state untouched and nothing
destroyed.  Otherwise: destroy the previous model's buffers and its
non-default textures/views, clear the mesh list, load textures, bake all
nodes, compute center and radius from the accumulated bounds (radius
floored to 1 when below `0.001f`), commit the model, reset the camera
framing and set `model_loaded`. -/
noncomputable def load_model (s : ViewerState) (p : ParseOutcome) :
    LoadResult :=
  match p with
  | .parseFail => ⟨false, s, [], [], []⟩
  | .bufferFail => ⟨false, s, [], [], []⟩
  | .ok a =>
    let dT := s.default_texture
    let dV := s.default_texture_view
    let destB := s.model.meshes.flatMap
      (fun msh => msh.vertex_buffer ::
        (if msh.has_indices then [msh.index_buffer] else []))
    let destI := (s.model.meshes.filter (fun msh => msh.texture ≠ dT)).map
      (fun msh => msh.texture)
    let destV := (s.model.meshes.filter (fun msh => msh.texture ≠ dT)).map
      (fun msh => msh.texture_view)
    let tl := load_textures dT dV s.nextId a.images
    let ctx : TexCtx := ⟨tl.textures, tl.views, dT, dV⟩
    let bk := bake_nodes ctx tl.nextId a.nodes
    let center : V3 := ⟨(bk.minB.x + bk.maxB.x) * (1/2),
                        (bk.minB.y + bk.maxB.y) * (1/2),
                        (bk.minB.z + bk.maxB.z) * (1/2)⟩
    let extent : V3 := ⟨bk.maxB.x - bk.minB.x,
                        bk.maxB.y - bk.minB.y,
                        bk.maxB.z - bk.minB.z⟩
    let r0 := lenV3 extent * (1/2)
    let r := if r0 < 1/1000 then 1 else r0
    { success := true
      state :=
        { s with
            model := ⟨bk.meshes, center, r⟩
            model_loaded := true
            nextId := bk.nextId
            cam_target := center
            cam_distance := r * 2.5
            cam_elevation := 15
            cam_azimuth := 45 }
      destroyedBuffers := destB
      destroyedImages := destI
      destroyedViews := destV }

/-- Result of the `cleanup` callback: the handles it destroys (the sampler
and pipeline, which no claim mentions, are omitted). -/
structure CleanupResult where
  destroyedBuffers : List Nat
  destroyedImages : List Nat
  destroyedViews : List Nat

/-- The `cleanup` callback (main.cpp lines 790-811): destroy every mesh's
buffers and its non-default texture/view, then the default texture view
and default texture. -/
def cleanup (s : ViewerState) : CleanupResult :=
  { destroyedBuffers := s.model.meshes.flatMap
      (fun msh => msh.vertex_buffer ::
        (if msh.has_indices then [msh.index_buffer] else []))
    destroyedImages :=
      ((s.model.meshes.filter
          (fun msh => msh.texture ≠ s.default_texture)).map
        (fun msh => msh.texture)) ++ [s.default_texture]
    destroyedViews :=
      ((s.model.meshes.filter
          (fun msh => msh.texture ≠ s.default_texture)).map
        (fun msh => msh.texture_view)) ++ [s.default_texture_view] }

/-- The `HMM_Clamp(Min, Value, Max)` helper of HandmadeMath: raise the
value to `Min`, then cap it at `Max`. -/
noncomputable def HMM_Clamp (lo v hi : ℝ) : ℝ := min (max lo v) hi

/-- Key codes the event handler distinguishes. -/
inductive EKey where
  | escape : EKey
  | keyR : EKey
  | other : EKey

/-- Input events delivered to the `event` callback.  `filesDropped`
carries the number of dropped files and the parse outcome of the dropped
path (the file contents being external input). -/
inductive Ev where
  | mouseDown (left : Bool) (x y : ℝ) : Ev
  | mouseUp (left : Bool) : Ev
  | mouseMove (x y : ℝ) : Ev
  | scroll (sy : ℝ) : Ev
  | filesDropped (numFiles : Nat) (p : ParseOutcome) : Ev
  | keyDown (k : EKey) : Ev

/-- The `event` callback (main.cpp lines 813-876).  Drag adjusts azimuth
and elevation by the pointer delta scaled by `0.002f`, clamping elevation
with `HMM_Clamp(-89, e, 89)`; scroll rescales the distance and floors it
at `0.1f`; a file drop runs `load_model`; the R key resets the camera
framing only when a model is loaded. -/
noncomputable def handle_event (s : ViewerState) (e : Ev) : ViewerState :=
  match e with
  | .mouseDown left x y =>
    if left then
      { s with mouse_down := true, last_mouse_x := x, last_mouse_y := y }
    else s
  | .mouseUp left =>
    if left then { s with mouse_down := false } else s
  | .mouseMove x y =>
    if s.mouse_down then
      let dx := x - s.last_mouse_x
      let dy := y - s.last_mouse_y
      { s with
          cam_azimuth := s.cam_azimuth - dx * (1/500)
          cam_elevation :=
            HMM_Clamp (-89) (s.cam_elevation + dy * (1/500)) 89
          last_mouse_x := x
          last_mouse_y := y }
    else s
  | .scroll sy =>
    let d := s.cam_distance - sy * s.cam_distance * (1/10)
    { s with cam_distance := max (1/10) d }
  | .filesDropped n p =>
    if 0 < n then (load_model s p).state else s
  | .keyDown k =>
    match k with
    | .escape => s
    | .keyR =>
      if s.model_loaded then
        { s with
            cam_target := s.model.center
            cam_distance := s.model.radius * 2.5
            cam_elevation := 15
            cam_azimuth := 45 }
      else s
    | .other => s

/-- Draw-call element count chosen by `frame` (main.cpp lines 778-782):
the index count for indexed meshes, the vertex count otherwise. -/
def draw_count (msh : RenderMesh) : Nat :=
  if msh.has_indices then msh.num_indices else msh.num_vertices

/-! Concrete fixtures used by witnesses and counterexamples. -/

/-- A concrete viewer state as `init` leaves it (default texture handle 1,
its view 2, next fresh handle 3, no model). -/
def s0 : ViewerState :=
  { default_texture := 1
    default_texture_view := 2
    model := ⟨[], ⟨0, 0, 0⟩, 1⟩
    model_loaded := false
    cam_distance := 5
    cam_azimuth := 45
    cam_elevation := 20
    cam_target := ⟨0, 0, 0⟩
    mouse_down := false
    last_mouse_x := 0
    last_mouse_y := 0
    time := 0
    nextId := 3 }

/-- A triangle primitive holding a single point at the origin. -/
def primPoint : Primitive := ⟨true, some [⟨0, 0, 0⟩], none, none, none, none⟩

/-- Asset whose only geometry is a single point. -/
def aPoint : Asset := ⟨[], [⟨idMat, some [primPoint]⟩]⟩

/-- A triangle primitive spanning a small segment of length 3/2. -/
noncomputable def primSmall : Primitive :=
  ⟨true, some [⟨0, 0, 0⟩, ⟨3/2, 0, 0⟩], none, none, none, none⟩

/-- Asset with a small (but not degenerate) extent. -/
noncomputable def aSmall : Asset := ⟨[], [⟨idMat, some [primSmall]⟩]⟩

/-- A one-vertex triangle primitive whose index accessor holds the
out-of-range value 5. -/
def prim5 : Primitive := ⟨true, some [⟨0, 0, 0⟩], none, none, some [5], none⟩

/-- Asset whose single node has no mesh. -/
def aNoGeom : Asset := ⟨[], [⟨idMat, none⟩]⟩

/-- A primitive whose material references image index 0. -/
def primRef0 : Primitive :=
  ⟨true, some [⟨0, 0, 0⟩], none, none, none, some ⟨true, ⟨1, 1, 1, 1⟩, some 0⟩⟩

/-- Asset whose only image is an external file that fails to decode. -/
def aBadImage : Asset := ⟨[.external false], [⟨idMat, some [primRef0]⟩]⟩

/-- A texture context with empty texture arrays. -/
def ctx0 : TexCtx := ⟨[], [], 1, 2⟩

/-- A bake state with zeroed bounds, next handle 3, no meshes yet. -/
def bst0 : BakeState := ⟨⟨0, 0, 0⟩, ⟨0, 0, 0⟩, 3, []⟩

/-! Claim C2: failure leaves the state untouched. -/

/-- C2: for every call of `load_model` in every state, if parsing the
container or loading its buffers fails, `load_model` returns failure, the
entire prior viewer state (mesh list, center, radius, `model_loaded`,
camera, and everything else) is exactly as it was, and no GPU resource is
destroyed. -/
theorem load_model_failure_is_noop (s : ViewerState) (p : ParseOutcome)
    (h : p = ParseOutcome.parseFail ∨ p = ParseOutcome.bufferFail) :
    (load_model s p).success = false ∧
    (load_model s p).state = s ∧
    (load_model s p).destroyedBuffers = [] ∧
    (load_model s p).destroyedImages = [] ∧
    (load_model s p).destroyedViews = [] := by
  rcases h with h | h <;> subst h <;> exact ⟨rfl, rfl, rfl, rfl, rfl⟩

/-- Witness for C2 at the concrete state `s0` and a parse failure. -/
theorem load_model_failure_is_noop_witness :
    (load_model s0 ParseOutcome.parseFail).success = false ∧
    (load_model s0 ParseOutcome.parseFail).state = s0 ∧
    (load_model s0 ParseOutcome.parseFail).destroyedBuffers = [] ∧
    (load_model s0 ParseOutcome.parseFail).destroyedImages = [] ∧
    (load_model s0 ParseOutcome.parseFail).destroyedViews = [] :=
  load_model_failure_is_noop s0 ParseOutcome.parseFail (Or.inl rfl)

/-! Claim C10: the reset key is guarded by the model-loaded flag. -/

/-- C10: pressing the reset-camera key when no model has ever been loaded
leaves the entire state — in particular target, distance, azimuth and
elevation — unchanged. -/
theorem reset_key_noop_when_not_loaded (s : ViewerState)
    (h : s.model_loaded = false) :
    handle_event s (Ev.keyDown EKey.keyR) = s := by
  simp [handle_event, h]

/-- Witness for C10 at the concrete state `s0`. -/
theorem reset_key_noop_when_not_loaded_witness :
    s0.model_loaded = false ∧
    handle_event s0 (Ev.keyDown EKey.keyR) = s0 :=
  ⟨rfl, reset_key_noop_when_not_loaded s0 rfl⟩

/-! Claim C4: reset-camera is idempotent and matches the load framing. -/

/-- C4: when a model is loaded, resetting the camera twice equals
resetting once, the resulting camera is exactly
(target = model.center, distance = model.radius * 2.5, azimuth = 45,
elevation = 15), and the end of every successful load establishes the
same framing. -/
theorem reset_camera_idempotent (s : ViewerState)
    (h : s.model_loaded = true) :
    handle_event (handle_event s (Ev.keyDown EKey.keyR))
        (Ev.keyDown EKey.keyR) =
      handle_event s (Ev.keyDown EKey.keyR) ∧
    (handle_event s (Ev.keyDown EKey.keyR)).cam_target = s.model.center ∧
    (handle_event s (Ev.keyDown EKey.keyR)).cam_distance =
      s.model.radius * 2.5 ∧
    (handle_event s (Ev.keyDown EKey.keyR)).cam_azimuth = 45 ∧
    (handle_event s (Ev.keyDown EKey.keyR)).cam_elevation = 15 ∧
    (∀ a : Asset,
      (load_model s (ParseOutcome.ok a)).state.cam_target =
        (load_model s (ParseOutcome.ok a)).state.model.center ∧
      (load_model s (ParseOutcome.ok a)).state.cam_distance =
        (load_model s (ParseOutcome.ok a)).state.model.radius * 2.5 ∧
      (load_model s (ParseOutcome.ok a)).state.cam_azimuth = 45 ∧
      (load_model s (ParseOutcome.ok a)).state.cam_elevation = 15) := by
  refine ⟨?_, ?_, ?_, ?_, ?_, ?_⟩
  · simp [handle_event, h]
  · simp [handle_event, h]
  · simp [handle_event, h]
  · simp [handle_event, h]
  · simp [handle_event, h]
  · intro a
    refine ⟨?_, ?_, ?_, ?_⟩ <;> simp [load_model]

/-- Witness for C4 at a concrete loaded state. -/
theorem reset_camera_idempotent_witness :
    ({ s0 with model_loaded := true } : ViewerState).model_loaded = true ∧
    (handle_event (handle_event { s0 with model_loaded := true }
        (Ev.keyDown EKey.keyR)) (Ev.keyDown EKey.keyR) =
      handle_event { s0 with model_loaded := true }
        (Ev.keyDown EKey.keyR)) ∧
    (handle_event { s0 with model_loaded := true }
        (Ev.keyDown EKey.keyR)).cam_distance =
      ({ s0 with model_loaded := true } : ViewerState).model.radius * 2.5 :=
  ⟨rfl,
   (reset_camera_idempotent { s0 with model_loaded := true } rfl).1,
   (reset_camera_idempotent { s0 with model_loaded := true } rfl).2.2.1⟩

/-! Claim C3: the elevation clamp.  The code clamps with
`HMM_Clamp(-89.0f, e, 89.0f)`, which is the closed interval `[-89, 89]`:
a large drag pins the elevation at exactly 89, so the claimed open
interval `(-89, 89)` fails; the closed interval is invariant. -/

/-- Clamping lands in the closed interval when the bounds are ordered. -/
theorem HMM_Clamp_mem (lo v hi : ℝ) (h : lo ≤ hi) :
    lo ≤ HMM_Clamp lo v hi ∧ HMM_Clamp lo v hi ≤ hi :=
  ⟨le_min (le_max_left lo v) h, min_le_right _ _⟩

/-- After any load attempt the elevation is 15 or untouched. -/
theorem load_model_elevation (s : ViewerState) (p : ParseOutcome) :
    (load_model s p).state.cam_elevation = 15 ∨
    (load_model s p).state.cam_elevation = s.cam_elevation := by
  cases p with
  | parseFail => exact Or.inr rfl
  | bufferFail => exact Or.inr rfl
  | ok a => exact Or.inl (by simp [load_model])

/-- A single event keeps the elevation inside `[-89, 89]`. -/
theorem handle_event_elevation_bounds (s : ViewerState) (e : Ev)
    (h1 : -89 ≤ s.cam_elevation) (h2 : s.cam_elevation ≤ 89) :
    -89 ≤ (handle_event s e).cam_elevation ∧
    (handle_event s e).cam_elevation ≤ 89 := by
  cases e with
  | mouseDown left x y =>
    by_cases hl : left = true <;> simp [handle_event, hl, h1, h2]
  | mouseUp left =>
    by_cases hl : left = true <;> simp [handle_event, hl, h1, h2]
  | mouseMove x y =>
    by_cases hm : s.mouse_down = true
    · have := HMM_Clamp_mem (-89)
        (s.cam_elevation + (y - s.last_mouse_y) * (1/500)) 89 (by norm_num)
      simpa [handle_event, hm] using this
    · simp [handle_event, hm, h1, h2]
  | scroll sy => simp [handle_event, h1, h2]
  | filesDropped n p =>
    by_cases hn : 0 < n
    · rcases load_model_elevation s p with hload | hload <;>
        simp [handle_event, hn, hload, h1, h2] <;> norm_num
    · simp [handle_event, hn, h1, h2]
  | keyDown k =>
    cases k with
    | escape => exact ⟨h1, h2⟩
    | keyR =>
      by_cases hl : s.model_loaded = true <;>
        simp [handle_event, hl, h1, h2] <;> norm_num
    | other => exact ⟨h1, h2⟩

/-- C3 (amended): starting from any camera state with elevation in the
closed interval `[-89, 89]`, after any sequence of input events (drags,
scrolls, file drops, resets) the elevation is still at least -89 and at
most 89; a drag past the pole pins it at exactly ±89, the endpoints
included. -/
theorem cam_elevation_invariant (s : ViewerState) (evs : List Ev)
    (h1 : -89 ≤ s.cam_elevation) (h2 : s.cam_elevation ≤ 89) :
    -89 ≤ (evs.foldl handle_event s).cam_elevation ∧
    (evs.foldl handle_event s).cam_elevation ≤ 89 := by
  induction evs generalizing s with
  | nil => exact ⟨h1, h2⟩
  | cons e rest ih =>
    obtain ⟨a, b⟩ := handle_event_elevation_bounds s e h1 h2
    exact ih _ a b

/-- Counterexample to C3 as stated: from elevation 20 (inside the open
interval), one drag event of 50000 pixels leaves the elevation at exactly
89, which is not strictly less than 89. -/
theorem cam_elevation_open_interval_counterexample :
    (-89 < ({ s0 with mouse_down := true } : ViewerState).cam_elevation ∧
     ({ s0 with mouse_down := true } : ViewerState).cam_elevation < 89) ∧
    (handle_event { s0 with mouse_down := true }
        (Ev.mouseMove 0 50000)).cam_elevation = 89 ∧
    ¬ (handle_event { s0 with mouse_down := true }
        (Ev.mouseMove 0 50000)).cam_elevation < 89 := by
  have h : (handle_event { s0 with mouse_down := true }
      (Ev.mouseMove 0 50000)).cam_elevation = 89 := by
    simp [handle_event, s0, HMM_Clamp]
    norm_num [max_def, min_def]
  refine ⟨⟨?_, ?_⟩, h, ?_⟩
  · show (-89 : ℝ) < 20; norm_num
  · show (20 : ℝ) < 89; norm_num
  · rw [h]; norm_num

/-- Witness for the amended C3 on a concrete state and event sequence. -/
theorem cam_elevation_invariant_witness :
    -89 ≤ ([Ev.mouseDown true 0 0, Ev.mouseMove 0 50000].foldl
      handle_event s0).cam_elevation ∧
    ([Ev.mouseDown true 0 0, Ev.mouseMove 0 50000].foldl
      handle_event s0).cam_elevation ≤ 89 :=
  cam_elevation_invariant s0 [Ev.mouseDown true 0 0, Ev.mouseMove 0 50000]
    (by norm_num [s0]) (by norm_num [s0])

/-! Claim C1: the bounding-radius floor.  The code floors the radius to
1.0 only when the computed value is below `0.001f`; a small but
non-degenerate model keeps its computed radius, which can be below 1.0. -/

/-- The bounding radius before flooring: half the length of the bounding
box diagonal accumulated by the load pipeline (main.cpp lines 596-599). -/
noncomputable def computed_radius (s : ViewerState) (a : Asset) : ℝ :=
  let tl := load_textures s.default_texture s.default_texture_view
    s.nextId a.images
  let bk := bake_nodes ⟨tl.textures, tl.views, s.default_texture,
    s.default_texture_view⟩ tl.nextId a.nodes
  lenV3 ⟨bk.maxB.x - bk.minB.x, bk.maxB.y - bk.minB.y,
    bk.maxB.z - bk.minB.z⟩ * (1/2)

/-- The stored radius is the computed radius floored at the 0.001
epsilon (main.cpp lines 601-603). -/
theorem load_model_radius (s : ViewerState) (a : Asset) :
    (load_model s (ParseOutcome.ok a)).state.model.radius =
      if computed_radius s a < 1/1000 then 1 else computed_radius s a := by
  simp [load_model, computed_radius]

/-- C1 (amended): for every successful load the stored bounding radius is
never below the 0.001 epsilon, and whenever the computed radius falls
below that epsilon (as for degenerate geometry: a single point or
coincident vertices) it is replaced by exactly 1.0.  (The claim's
stronger statement — stored radius never below 1.0 — fails: a small
non-degenerate model keeps a computed radius between 0.001 and 1.) -/
theorem load_radius_epsilon_floor (s : ViewerState) (a : Asset) :
    (1/1000 : ℝ) ≤ (load_model s (ParseOutcome.ok a)).state.model.radius ∧
    (computed_radius s a < 1/1000 →
      (load_model s (ParseOutcome.ok a)).state.model.radius = 1) := by
  rw [load_model_radius]
  constructor
  · by_cases h : computed_radius s a < 1/1000
    · rw [if_pos h]; norm_num
    · rw [if_neg h]; exact not_lt.mp h
  · intro h; rw [if_pos h]

/-- Witness for the amended C1: the single-point asset is degenerate and
its stored radius is exactly 1. -/
theorem load_radius_epsilon_floor_witness :
    computed_radius s0 aPoint < 1/1000 ∧
    (load_model s0 (ParseOutcome.ok aPoint)).state.model.radius = 1 := by
  have hz : computed_radius s0 aPoint = 0 := by
    simp [computed_radius, s0, aPoint, primPoint, idMat, load_textures,
      bake_nodes, process_node, process_primitive, update_bounds,
      transform_point, lenV3]
  have hcp : computed_radius s0 aPoint < 1/1000 := by rw [hz]; norm_num
  exact ⟨hcp, (load_radius_epsilon_floor s0 aPoint).2 hcp⟩

/-- Counterexample to C1 as stated: the small two-vertex asset loads
successfully with a stored radius of 3/4, which is below the claimed
floor of 1.0. -/
theorem load_radius_below_floor_counterexample :
    (load_model s0 (ParseOutcome.ok aSmall)).success = true ∧
    (load_model s0 (ParseOutcome.ok aSmall)).state.model.radius < 1 := by
  have hcr : computed_radius s0 aSmall = 3/4 := by
    have hq : Real.sqrt (9/4 : ℝ) = 3/2 := by
      rw [show (9/4 : ℝ) = (3/2)^2 by norm_num]
      exact Real.sqrt_sq (by norm_num)
    simp [computed_radius, s0, aSmall, primSmall, idMat, load_textures,
      bake_nodes, process_node, process_primitive, update_bounds,
      transform_point, lenV3]
    norm_num [min_def, max_def]
  constructor
  · rfl
  · rw [load_model_radius, hcr]
    rw [if_neg (by norm_num)]
    norm_num

/-! Claim C9: a successful load that bakes nothing keeps the sentinel
bounds and produces an enormous radius. -/

/-- A primitive skipped for non-triangle topology or missing positions
leaves the bake state untouched. -/
theorem process_primitive_skipped (ctx : TexCtx) (m : Mat4)
    (st : BakeState) (prim : Primitive)
    (h : prim.isTriangles = false ∨ prim.pos = none) :
    process_primitive ctx m st prim = st := by
  rcases h with h | h
  · simp [process_primitive, h]
  · rcases htri : prim.isTriangles with _ | _ <;>
      simp [process_primitive, htri, h]

/-- Folding skipped primitives is the identity on the bake state. -/
theorem foldl_process_primitive_skipped (ctx : TexCtx) (m : Mat4) :
    ∀ (prims : List Primitive) (st : BakeState),
      (∀ prim ∈ prims, prim.isTriangles = false ∨ prim.pos = none) →
      prims.foldl (process_primitive ctx m) st = st := by
  intro prims
  induction prims with
  | nil => intro st _; rfl
  | cons p rest ih =>
    intro st h
    rw [List.foldl_cons, process_primitive_skipped ctx m st p (h p (by simp))]
    exact ih st (fun q hq => h q (by simp [hq]))

/-- A node whose mesh is absent or whose primitives are all skipped
leaves the bake state untouched. -/
theorem process_node_skipped (ctx : TexCtx) (st : BakeState) (node : Node)
    (h : ∀ prims, node.mesh = some prims →
      ∀ prim ∈ prims, prim.isTriangles = false ∨ prim.pos = none) :
    process_node ctx st node = st := by
  cases hm : node.mesh with
  | none => simp [process_node, hm]
  | some prims =>
    simp only [process_node, hm]
    exact foldl_process_primitive_skipped ctx node.worldMatrix prims st (h prims hm)

/-- When every node bakes nothing, the whole node loop returns the
initial sentinel bake state. -/
theorem bake_nodes_skipped (ctx : TexCtx) (n : Nat) (nodes : List Node)
    (h : ∀ node ∈ nodes, ∀ prims, node.mesh = some prims →
      ∀ prim ∈ prims, prim.isTriangles = false ∨ prim.pos = none) :
    bake_nodes ctx n nodes =
      ⟨⟨10 ^ 10, 10 ^ 10, 10 ^ 10⟩,
       ⟨-(10 ^ 10), -(10 ^ 10), -(10 ^ 10)⟩, n, []⟩ := by
  unfold bake_nodes
  induction nodes with
  | nil => rfl
  | cons node rest ih =>
    rw [List.foldl_cons, process_node_skipped ctx _ node (h node (by simp))]
    exact ih (fun q hq => h q (by simp [hq]))

/-- C9: for every asset that parses and loads buffers but yields no baked
vertices (no node references a mesh, or every primitive is skipped for
non-triangle topology or missing positions), `load_model` still returns
success, sets the model-loaded flag, leaves the mesh list empty, and the
center/radius come from the untouched sentinel bounds: center (0,0,0) and
a radius in excess of 10^10 — not the 1.0 floor. -/
theorem load_no_geometry (s : ViewerState) (a : Asset)
    (h : ∀ node ∈ a.nodes, ∀ prims, node.mesh = some prims →
      ∀ prim ∈ prims, prim.isTriangles = false ∨ prim.pos = none) :
    (load_model s (ParseOutcome.ok a)).success = true ∧
    (load_model s (ParseOutcome.ok a)).state.model_loaded = true ∧
    (load_model s (ParseOutcome.ok a)).state.model.meshes = [] ∧
    (load_model s (ParseOutcome.ok a)).state.model.center = ⟨0, 0, 0⟩ ∧
    (10 ^ 10 : ℝ) < (load_model s (ParseOutcome.ok a)).state.model.radius := by
  have hbk : ∀ (ctx : TexCtx) (n : Nat),
      bake_nodes ctx n a.nodes =
        ⟨⟨10 ^ 10, 10 ^ 10, 10 ^ 10⟩,
         ⟨-(10 ^ 10), -(10 ^ 10), -(10 ^ 10)⟩, n, []⟩ :=
    fun ctx n => bake_nodes_skipped ctx n a.nodes h
  have hext : lenV3 ⟨-(10 ^ 10) - 10 ^ 10, -(10 ^ 10) - 10 ^ 10,
      -(10 ^ 10) - 10 ^ 10⟩ = Real.sqrt (12 * 10 ^ 20) := by
    unfold lenV3
    norm_num
  have hsq : (2 * 10 ^ 10 : ℝ) < Real.sqrt (12 * 10 ^ 20) :=
    (Real.lt_sqrt (by positivity)).mpr (by norm_num)
  have hcr : computed_radius s a = Real.sqrt (12 * 10 ^ 20) * (1/2) := by
    simp only [computed_radius]
    rw [hbk]
    norm_num [lenV3]
  have hbig : (10 ^ 10 : ℝ) < Real.sqrt (12 * 10 ^ 20) * (1/2) := by
    have h2 : (2 * 10 ^ 10 : ℝ) * (1/2) < Real.sqrt (12 * 10 ^ 20) * (1/2) :=
      mul_lt_mul_of_pos_right hsq (by norm_num)
    calc (10 ^ 10 : ℝ) = (2 * 10 ^ 10) * (1/2) := by ring
      _ < Real.sqrt (12 * 10 ^ 20) * (1/2) := h2
  refine ⟨rfl, rfl, ?_, ?_, ?_⟩
  · simp only [load_model]
    rw [hbk]
  · simp only [load_model]
    rw [hbk]
    show (⟨(10 ^ 10 + -(10 ^ 10)) * (1/2), (10 ^ 10 + -(10 ^ 10)) * (1/2),
      (10 ^ 10 + -(10 ^ 10)) * (1/2)⟩ : V3) = ⟨0, 0, 0⟩
    norm_num
  · rw [load_model_radius, hcr]
    rw [if_neg (not_lt.mpr (le_of_lt (lt_trans (by norm_num) hbig)))]
    exact hbig

/-- Witness for C9 at the concrete mesh-less asset. -/
theorem load_no_geometry_witness :
    (load_model s0 (ParseOutcome.ok aNoGeom)).success = true ∧
    (load_model s0 (ParseOutcome.ok aNoGeom)).state.model_loaded = true ∧
    (load_model s0 (ParseOutcome.ok aNoGeom)).state.model.meshes = [] ∧
    (load_model s0 (ParseOutcome.ok aNoGeom)).state.model.center = ⟨0, 0, 0⟩ ∧
    (10 ^ 10 : ℝ) <
      (load_model s0 (ParseOutcome.ok aNoGeom)).state.model.radius :=
  load_no_geometry s0 aNoGeom (by
    intro node hn
    simp only [aNoGeom, List.mem_singleton] at hn
    subst hn
    intro prims hp
    cases hp)

/-! Claim C5: index buffer emission.  The loop at main.cpp lines 541-558
re-emits every source index as a `uint32_t` without any range check, so
"each entry is less than the vertex count" holds only when the source
indices are in range. -/

/-- A two-vertex primitive whose index accessor is in range. -/
def primIdx : Primitive :=
  ⟨true, some [⟨0, 0, 0⟩, ⟨0, 0, 0⟩], none, none, some [1, 0, 1], none⟩

/-- The material resolution in `make_mesh` only touches `base_color`,
`texture` and `texture_view`; all other mesh fields are as initialized. -/
theorem make_mesh_fields (ctx : TexCtx) (prim : Primitive)
    (verts : List Vertex) (vb nv : Nat) (ib : Option (Nat × List Nat)) :
    (make_mesh ctx prim verts vb nv ib).has_indices = ib.isSome ∧
    (make_mesh ctx prim verts vb nv ib).num_indices =
      (match ib with | some bi => bi.2.length | none => 0) ∧
    (make_mesh ctx prim verts vb nv ib).indices_data =
      (match ib with | some bi => bi.2 | none => []) ∧
    (make_mesh ctx prim verts vb nv ib).num_vertices = nv ∧
    (make_mesh ctx prim verts vb nv ib).vertices = verts ∧
    (make_mesh ctx prim verts vb nv ib).vertex_buffer = vb := by
  unfold make_mesh
  rcases hm : prim.material with _ | mat
  · simp
  · rcases hp : mat.hasPbr with _ | _
    · simp [hp]
    · rcases hb : mat.baseColorTexImage with _ | idx
      · simp [hp, hb]
      · by_cases hi : idx < ctx.textures.length <;> simp [hp, hb, hi]

/-- C5 (amended): for every processed triangle-list primitive with an
index accessor of count M, the emitted index buffer holds exactly M
entries, each being the corresponding source value re-emitted as an
unsigned 32-bit integer (reduced mod 2^32); when every source index is
below the vertex count (and the vertex count fits in 32 bits) every
emitted entry is below the vertex count — but the loader itself performs
no range validation.  Without an index accessor no index data is created,
`has_indices` is false, and the primitive is drawn as a flat vertex list
in source order. -/
theorem index_buffer_emission (ctx : TexCtx) (m : Mat4) (st : BakeState)
    (prim : Primitive) (posL : List V3)
    (htri : prim.isTriangles = true) (hpos : prim.pos = some posL) :
    (∀ ixs, prim.indices = some ixs →
      ((process_primitive ctx m st prim).meshes.getLastD
          default).has_indices = true ∧
      ((process_primitive ctx m st prim).meshes.getLastD
          default).num_indices = ixs.length ∧
      ((process_primitive ctx m st prim).meshes.getLastD
          default).indices_data = ixs.map (fun k => k % 2 ^ 32) ∧
      ((process_primitive ctx m st prim).meshes.getLastD
          default).num_vertices = posL.length ∧
      (posL.length ≤ 2 ^ 32 → (∀ k ∈ ixs, k < posL.length) →
        ∀ e ∈ ((process_primitive ctx m st prim).meshes.getLastD
          default).indices_data, e < posL.length)) ∧
    (prim.indices = none →
      ((process_primitive ctx m st prim).meshes.getLastD
          default).has_indices = false ∧
      ((process_primitive ctx m st prim).meshes.getLastD
          default).indices_data = [] ∧
      ((process_primitive ctx m st prim).meshes.getLastD
          default).num_vertices = posL.length ∧
      ((process_primitive ctx m st prim).meshes.getLastD
          default).vertices = bake_vertices m posL prim.norm prim.uv ∧
      draw_count ((process_primitive ctx m st prim).meshes.getLastD
          default) = posL.length) := by
  constructor
  · intro ixs hix
    have hmesh : (process_primitive ctx m st prim).meshes.getLastD default =
        make_mesh ctx prim (bake_vertices m posL prim.norm prim.uv)
          st.nextId posL.length
          (some (st.nextId + 1, ixs.map (fun k => k % 2 ^ 32))) := by
      simp [process_primitive, htri, hpos, hix, List.getLastD_concat]
    obtain ⟨f1, f2, f3, f4, _, _⟩ := make_mesh_fields ctx prim
      (bake_vertices m posL prim.norm prim.uv) st.nextId posL.length
      (some (st.nextId + 1, ixs.map (fun k => k % 2 ^ 32)))
    rw [hmesh]
    refine ⟨by rw [f1]; rfl, by rw [f2]; simp, by rw [f3], f4, ?_⟩
    intro hle hall e he
    rw [f3] at he
    simp only [List.mem_map] at he
    obtain ⟨k, hk, rfl⟩ := he
    rw [Nat.mod_eq_of_lt (lt_of_lt_of_le (hall k hk) hle)]
    exact hall k hk
  · intro hix
    have hmesh : (process_primitive ctx m st prim).meshes.getLastD default =
        make_mesh ctx prim (bake_vertices m posL prim.norm prim.uv)
          st.nextId posL.length none := by
      simp [process_primitive, htri, hpos, hix, List.getLastD_concat]
    obtain ⟨f1, _, f3, f4, f5, _⟩ := make_mesh_fields ctx prim
      (bake_vertices m posL prim.norm prim.uv) st.nextId posL.length none
    rw [hmesh]
    exact ⟨by simp [f1], by simp [f3], f4, f5,
      by simp [draw_count, f1, f4]⟩

/-- Witness for the amended C5 at a concrete in-range indexed primitive. -/
theorem index_buffer_emission_witness :
    ((process_primitive ctx0 idMat bst0 primIdx).meshes.getLastD
        default).has_indices = true ∧
    ((process_primitive ctx0 idMat bst0 primIdx).meshes.getLastD
        default).num_indices = 3 ∧
    ((process_primitive ctx0 idMat bst0 primIdx).meshes.getLastD
        default).indices_data = [1, 0, 1] ∧
    ((process_primitive ctx0 idMat bst0 primIdx).meshes.getLastD
        default).num_vertices = 2 ∧
    (∀ e ∈ ((process_primitive ctx0 idMat bst0 primIdx).meshes.getLastD
        default).indices_data, e < 2) := by
  have h := (index_buffer_emission ctx0 idMat bst0 primIdx
    [⟨0, 0, 0⟩, ⟨0, 0, 0⟩] rfl rfl).1 [1, 0, 1] rfl
  refine ⟨h.1, by simpa using h.2.1, ?_, by simpa using h.2.2.2.1, ?_⟩
  · rw [h.2.2.1]
    norm_num
  · intro e he
    have := h.2.2.2.2 (by norm_num) (by decide) e he
    simpa using this

/-- Counterexample to C5 as stated: a one-vertex primitive with index
accessor `[5]` is processed into a mesh whose emitted index entry 5 is
not less than its vertex count 1. -/
theorem index_out_of_range_counterexample :
    ((process_primitive ctx0 idMat bst0 prim5).meshes.getLastD
        default).has_indices = true ∧
    ((process_primitive ctx0 idMat bst0 prim5).meshes.getLastD
        default).indices_data = [5] ∧
    ((process_primitive ctx0 idMat bst0 prim5).meshes.getLastD
        default).num_vertices = 1 ∧
    ¬ (5 < 1) := by
  have h5 : (5 : Nat) % 2 ^ 32 = 5 := by norm_num
  refine ⟨?_, ?_, ?_, by norm_num⟩ <;>
    simp [process_primitive, prim5, ctx0, bst0, make_mesh,
      List.getLastD_concat, h5]

/-! Claim C6: baked normals are unit length or the canonical up vector. -/

/-- Dividing a vector of positive length by its length yields a unit
vector (in exact arithmetic). -/
theorem lenV3_normalize (n : V3) (h : (0:ℝ) < lenV3 n) :
    lenV3 ⟨n.x / lenV3 n, n.y / lenV3 n, n.z / lenV3 n⟩ = 1 := by
  obtain ⟨nx, ny, nz⟩ := n
  have hq : (0:ℝ) ≤ nx * nx + ny * ny + nz * nz :=
    add_nonneg (add_nonneg (mul_self_nonneg nx) (mul_self_nonneg ny))
      (mul_self_nonneg nz)
  have hll : Real.sqrt (nx * nx + ny * ny + nz * nz) *
      Real.sqrt (nx * nx + ny * ny + nz * nz) =
      nx * nx + ny * ny + nz * nz := Real.mul_self_sqrt hq
  simp only [lenV3] at h ⊢
  have hqpos : (0:ℝ) < nx * nx + ny * ny + nz * nz := by
    have := mul_pos h h
    rwa [hll] at this
  have harg : nx / Real.sqrt (nx * nx + ny * ny + nz * nz) *
      (nx / Real.sqrt (nx * nx + ny * ny + nz * nz)) +
      ny / Real.sqrt (nx * nx + ny * ny + nz * nz) *
      (ny / Real.sqrt (nx * nx + ny * ny + nz * nz)) +
      nz / Real.sqrt (nx * nx + ny * ny + nz * nz) *
      (nz / Real.sqrt (nx * nx + ny * ny + nz * nz)) = 1 := by
    have hsplit : nx / Real.sqrt (nx * nx + ny * ny + nz * nz) *
        (nx / Real.sqrt (nx * nx + ny * ny + nz * nz)) +
        ny / Real.sqrt (nx * nx + ny * ny + nz * nz) *
        (ny / Real.sqrt (nx * nx + ny * ny + nz * nz)) +
        nz / Real.sqrt (nx * nx + ny * ny + nz * nz) *
        (nz / Real.sqrt (nx * nx + ny * ny + nz * nz)) =
        (nx * nx + ny * ny + nz * nz) /
          (Real.sqrt (nx * nx + ny * ny + nz * nz) *
           Real.sqrt (nx * nx + ny * ny + nz * nz)) := by
      ring
    rw [hsplit, hll, div_self (ne_of_gt hqpos)]
  rw [harg, Real.sqrt_one]

/-- Behaviour of the normal transform: above the epsilon it is the exact
normalization (hence unit length); at or below it is the up vector. -/
theorem transform_normal_spec (m : Mat4) (v : V3) :
    (1/10000 < lenV3 (transform_dir m v) →
      transform_normal m v =
        ⟨(transform_dir m v).x / lenV3 (transform_dir m v),
         (transform_dir m v).y / lenV3 (transform_dir m v),
         (transform_dir m v).z / lenV3 (transform_dir m v)⟩ ∧
      lenV3 (transform_normal m v) = 1) ∧
    (lenV3 (transform_dir m v) ≤ 1/10000 →
      transform_normal m v = upV3) := by
  constructor
  · intro h
    have heq : transform_normal m v =
        ⟨(transform_dir m v).x / lenV3 (transform_dir m v),
         (transform_dir m v).y / lenV3 (transform_dir m v),
         (transform_dir m v).z / lenV3 (transform_dir m v)⟩ := by
      simp only [transform_normal]
      rw [if_pos h]
    refine ⟨heq, ?_⟩
    rw [heq]
    exact lenV3_normalize (transform_dir m v) (lt_trans (by norm_num) h)
  · intro h
    simp only [transform_normal]
    rw [if_neg (not_lt.mpr h)]

/-- C6: for every baked vertex, when the primitive has a normal accessor
the source normal is transformed by the upper 3x3 block of the node's
world matrix and renormalized, so the emitted normal has unit length —
except that when the transformed length is at or below the 0.0001 epsilon
the emitted normal is exactly (0,1,0); when the primitive has no normal
accessor, every vertex's emitted normal is exactly (0,1,0). -/
theorem baked_normal_unit_or_up (m : Mat4) (posL : List V3)
    (normAcc : Option (List V3)) (uvAcc : Option (List (ℝ × ℝ)))
    (vi : Nat) (hvi : vi < posL.length) :
    (normAcc = none →
      (bake_vertex m posL normAcc uvAcc vi).normal = upV3) ∧
    (∀ ns, normAcc = some ns →
      (1/10000 < lenV3 (transform_dir m (ns.getD vi upV3)) →
        (bake_vertex m posL normAcc uvAcc vi).normal =
          ⟨(transform_dir m (ns.getD vi upV3)).x /
              lenV3 (transform_dir m (ns.getD vi upV3)),
           (transform_dir m (ns.getD vi upV3)).y /
              lenV3 (transform_dir m (ns.getD vi upV3)),
           (transform_dir m (ns.getD vi upV3)).z /
              lenV3 (transform_dir m (ns.getD vi upV3))⟩ ∧
        lenV3 ((bake_vertex m posL normAcc uvAcc vi).normal) = 1) ∧
      (lenV3 (transform_dir m (ns.getD vi upV3)) ≤ 1/10000 →
        (bake_vertex m posL normAcc uvAcc vi).normal = upV3)) := by
  constructor
  · intro h
    simp [bake_vertex, h]
  · intro ns h
    have hb : (bake_vertex m posL normAcc uvAcc vi).normal =
        transform_normal m (ns.getD vi upV3) := by
      simp [bake_vertex, h]
    constructor
    · intro hlen
      refine ⟨?_, ?_⟩
      · rw [hb]
        exact ((transform_normal_spec m (ns.getD vi upV3)).1 hlen).1
      · rw [hb]
        exact ((transform_normal_spec m (ns.getD vi upV3)).1 hlen).2
    · intro hlen
      rw [hb]
      exact (transform_normal_spec m (ns.getD vi upV3)).2 hlen

/-- Witness for C6: with the identity matrix and source normal (0,0,2)
the transformed length is 2 (above the epsilon) and the baked normal has
unit length. -/
theorem baked_normal_unit_or_up_witness :
    (1/10000 : ℝ) <
      lenV3 (transform_dir idMat (([⟨0, 0, 2⟩] : List V3).getD 0 upV3)) ∧
    lenV3 ((bake_vertex idMat [⟨0, 0, 0⟩] (some [⟨0, 0, 2⟩])
      none 0).normal) = 1 := by
  have hl : lenV3 (transform_dir idMat
      (([⟨0, 0, 2⟩] : List V3).getD 0 upV3)) = 2 := by
    simp [transform_dir, idMat, lenV3]
  have hgt : (1/10000 : ℝ) <
      lenV3 (transform_dir idMat (([⟨0, 0, 2⟩] : List V3).getD 0 upV3)) := by
    rw [hl]; norm_num
  have h := (baked_normal_unit_or_up idMat [⟨0, 0, 0⟩] (some [⟨0, 0, 2⟩])
    none 0 (by norm_num)).2 [⟨0, 0, 2⟩] rfl
  exact ⟨hgt, (h.1 hgt).2⟩

/-! Claim C7: decode failures fall back to the default texture and never
abort the load. -/

/-- Loading an image whose decode fails yields the default texture, the
default view, and no handle consumption. -/
theorem load_one_failed (dT dV n : Nat) (img : Image)
    (h : decode_failed img = true) :
    load_one dT dV n img = (dT, dV, n) := by
  cases img with
  | noSource => simp [decode_failed] at h
  | embedded ok =>
    cases ok with
    | false => simp [load_one]
    | true => simp [decode_failed] at h
  | external ok =>
    cases ok with
    | false => simp [load_one]
    | true => simp [decode_failed] at h

/-- The texture and view arrays have one entry per image. -/
theorem load_textures_length (dT dV : Nat) :
    ∀ (n : Nat) (imgs : List Image),
      (load_textures dT dV n imgs).textures.length = imgs.length ∧
      (load_textures dT dV n imgs).views.length = imgs.length := by
  intro n imgs
  induction imgs generalizing n with
  | nil => simp [load_textures]
  | cons img rest ih =>
    simp [load_textures, (ih _).1, (ih _).2]

/-- A decode-failed image's slot holds the default texture and view. -/
theorem load_textures_failed_getD (dT dV : Nat) :
    ∀ (n : Nat) (imgs : List Image) (i : Nat), i < imgs.length →
      decode_failed (imgs.getD i Image.noSource) = true →
      (load_textures dT dV n imgs).textures.getD i 0 = dT ∧
      (load_textures dT dV n imgs).views.getD i 0 = dV := by
  intro n imgs
  induction imgs generalizing n with
  | nil => intro i hi _; simp at hi
  | cons img rest ih =>
    intro i hi hf
    cases i with
    | zero =>
      have h1 := load_one_failed dT dV n img (by simpa using hf)
      simp [load_textures, h1]
    | succ j =>
      have hrec := ih (load_one dT dV n img).2.2 j (by simpa using hi)
        (by simpa using hf)
      simpa [load_textures] using hrec

/-- The `getD` default is irrelevant for an in-range index. -/
theorem getD_default_irrel {α : Type} (l : List α) (i : Nat)
    (h : i < l.length) (d1 d2 : α) : l.getD i d1 = l.getD i d2 := by
  rw [List.getD_eq_getElem l d1 h, List.getD_eq_getElem l d2 h]

/-- When a primitive's material references image index `i` in range, the
mesh's texture/view are taken from the loaded arrays at `i`. -/
theorem make_mesh_texture_resolved (ctx : TexCtx) (prim : Primitive)
    (verts : List Vertex) (vb nv : Nat) (ib : Option (Nat × List Nat))
    (mat : Material) (i : Nat)
    (hm : prim.material = some mat) (hp : mat.hasPbr = true)
    (hb : mat.baseColorTexImage = some i)
    (hi : i < ctx.textures.length) :
    (make_mesh ctx prim verts vb nv ib).texture = ctx.textures.getD i ctx.dT ∧
    (make_mesh ctx prim verts vb nv ib).texture_view =
      ctx.views.getD i ctx.dV := by
  unfold make_mesh
  rw [hm]
  simp [hp, hb, hi]

/-- C7: for every image whose decode fails, the resolver returns the
shared default texture handle (and the default view) instead of
aborting; every primitive whose material references that image is bound
to the default texture; and the load operation still reports success. -/
theorem failed_decode_uses_default (s : ViewerState) (a : Asset) (i : Nat)
    (hi : i < a.images.length)
    (hfail : decode_failed (a.images.getD i Image.noSource) = true) :
    (load_model s (ParseOutcome.ok a)).success = true ∧
    (load_textures s.default_texture s.default_texture_view s.nextId
      a.images).textures.getD i 0 = s.default_texture ∧
    (load_textures s.default_texture s.default_texture_view s.nextId
      a.images).views.getD i 0 = s.default_texture_view ∧
    (∀ (prim : Primitive) (verts : List Vertex) (vb nv : Nat)
        (ib : Option (Nat × List Nat)) (mat : Material),
      prim.material = some mat → mat.hasPbr = true →
      mat.baseColorTexImage = some i →
      (make_mesh ⟨(load_textures s.default_texture s.default_texture_view
            s.nextId a.images).textures,
          (load_textures s.default_texture s.default_texture_view
            s.nextId a.images).views,
          s.default_texture, s.default_texture_view⟩
        prim verts vb nv ib).texture = s.default_texture ∧
      (make_mesh ⟨(load_textures s.default_texture s.default_texture_view
            s.nextId a.images).textures,
          (load_textures s.default_texture s.default_texture_view
            s.nextId a.images).views,
          s.default_texture, s.default_texture_view⟩
        prim verts vb nv ib).texture_view = s.default_texture_view) := by
  obtain ⟨ht, hv⟩ := load_textures_failed_getD s.default_texture
    s.default_texture_view s.nextId a.images i hi hfail
  refine ⟨rfl, ht, hv, ?_⟩
  intro prim verts vb nv ib mat hm hp hb
  have hlen := (load_textures_length s.default_texture
    s.default_texture_view s.nextId a.images).1
  have hi' : i < (load_textures s.default_texture s.default_texture_view
      s.nextId a.images).textures.length := by rw [hlen]; exact hi
  have hlenv := (load_textures_length s.default_texture
    s.default_texture_view s.nextId a.images).2
  have hiv : i < (load_textures s.default_texture s.default_texture_view
      s.nextId a.images).views.length := by rw [hlenv]; exact hi
  obtain ⟨t1, t2⟩ := make_mesh_texture_resolved
    ⟨(load_textures s.default_texture s.default_texture_view
        s.nextId a.images).textures,
     (load_textures s.default_texture s.default_texture_view
        s.nextId a.images).views,
     s.default_texture, s.default_texture_view⟩
    prim verts vb nv ib mat i hm hp hb hi'
  constructor
  · rw [t1]
    rw [getD_default_irrel _ i hi' _ 0]
    exact ht
  · rw [t2]
    rw [getD_default_irrel _ i hiv _ 0]
    exact hv

/-- Witness for C7 at the concrete asset whose only image fails to
decode and whose primitive references it. -/
theorem failed_decode_uses_default_witness :
    (load_model s0 (ParseOutcome.ok aBadImage)).success = true ∧
    (load_textures s0.default_texture s0.default_texture_view s0.nextId
      aBadImage.images).textures.getD 0 0 = s0.default_texture ∧
    (make_mesh ⟨(load_textures s0.default_texture s0.default_texture_view
          s0.nextId aBadImage.images).textures,
        (load_textures s0.default_texture s0.default_texture_view
          s0.nextId aBadImage.images).views,
        s0.default_texture, s0.default_texture_view⟩
      primRef0 [] 0 0 none).texture = s0.default_texture := by
  have h := failed_decode_uses_default s0 aBadImage 0
    (by simp [aBadImage]) (by simp [aBadImage, decode_failed])
  exact ⟨h.1, h.2.1,
    (h.2.2.2 primRef0 [] 0 0 none ⟨true, ⟨1, 1, 1, 1⟩, some 0⟩
      rfl rfl rfl).1⟩

/-! Claim C8: the shared default texture and view survive every
model-replacement destruction pass and are destroyed exactly once at
shutdown. -/

/-- A concrete mesh owning its own texture (handle 5) and view (6). -/
def meshA : RenderMesh :=
  ⟨10, 11, 3, 5, 6, ⟨1, 1, 1, 1⟩, true, 3, [], [0, 1, 2]⟩

/-- A concrete state holding one mesh with a non-default texture. -/
def sWithMesh : ViewerState :=
  { s0 with model := ⟨[meshA], ⟨0, 0, 0⟩, 1⟩ }

/-- C8: on a model-replacing load, a mesh's texture (and view) are
destroyed exactly when its texture handle differs from the default
texture's handle; the default texture and its view are never destroyed
by that pass; and `cleanup` destroys the default texture and its view
exactly once.  (The well-formedness hypothesis — a mesh holding a
non-default texture also holds a non-default view — is the spec's own
mesh invariant.) -/
theorem default_texture_never_destroyed (s : ViewerState) (a : Asset)
    (hwf : ∀ msh ∈ s.model.meshes, msh.texture ≠ s.default_texture →
      msh.texture_view ≠ s.default_texture_view) :
    s.default_texture ∉ (load_model s (ParseOutcome.ok a)).destroyedImages ∧
    s.default_texture_view ∉
      (load_model s (ParseOutcome.ok a)).destroyedViews ∧
    (∀ msh ∈ s.model.meshes,
      (msh.texture ∈ (load_model s (ParseOutcome.ok a)).destroyedImages ↔
        msh.texture ≠ s.default_texture)) ∧
    (cleanup s).destroyedImages.count s.default_texture = 1 ∧
    (cleanup s).destroyedViews.count s.default_texture_view = 1 := by
  have hdi : (load_model s (ParseOutcome.ok a)).destroyedImages =
      (s.model.meshes.filter
        (fun msh => msh.texture ≠ s.default_texture)).map
        (fun msh => msh.texture) := rfl
  have hdv : (load_model s (ParseOutcome.ok a)).destroyedViews =
      (s.model.meshes.filter
        (fun msh => msh.texture ≠ s.default_texture)).map
        (fun msh => msh.texture_view) := rfl
  have hniI : s.default_texture ∉
      (s.model.meshes.filter
        (fun msh => msh.texture ≠ s.default_texture)).map
        (fun msh => msh.texture) := by
    intro h
    obtain ⟨msh, hmem, heq⟩ := List.mem_map.mp h
    have hne := (List.mem_filter.mp hmem).2
    simp only [ne_eq, decide_not, Bool.not_eq_true', decide_eq_false_iff_not]
      at hne
    exact hne heq
  have hniV : s.default_texture_view ∉
      (s.model.meshes.filter
        (fun msh => msh.texture ≠ s.default_texture)).map
        (fun msh => msh.texture_view) := by
    intro h
    obtain ⟨msh, hmem, heq⟩ := List.mem_map.mp h
    obtain ⟨hmm, hne⟩ := List.mem_filter.mp hmem
    simp only [ne_eq, decide_not, Bool.not_eq_true', decide_eq_false_iff_not]
      at hne
    exact hwf msh hmm hne heq
  refine ⟨by rw [hdi]; exact hniI, by rw [hdv]; exact hniV, ?_, ?_, ?_⟩
  · intro msh hmem
    rw [hdi]
    constructor
    · intro h
      obtain ⟨msh2, hm2, heq⟩ := List.mem_map.mp h
      have hne := (List.mem_filter.mp hm2).2
      simp only [ne_eq, decide_not, Bool.not_eq_true',
        decide_eq_false_iff_not] at hne
      rw [← heq]
      exact hne
    · intro hne
      exact List.mem_map.mpr ⟨msh,
        List.mem_filter.mpr ⟨hmem, by simpa using hne⟩, rfl⟩
  · have hc : (cleanup s).destroyedImages =
        (s.model.meshes.filter
          (fun msh => msh.texture ≠ s.default_texture)).map
          (fun msh => msh.texture) ++ [s.default_texture] := rfl
    rw [hc, List.count_append, List.count_eq_zero.mpr hniI]
    simp
  · have hc : (cleanup s).destroyedViews =
        (s.model.meshes.filter
          (fun msh => msh.texture ≠ s.default_texture)).map
          (fun msh => msh.texture_view) ++ [s.default_texture_view] := rfl
    rw [hc, List.count_append, List.count_eq_zero.mpr hniV]
    simp

/-- Witness for C8 at a concrete state with one texture-owning mesh. -/
theorem default_texture_never_destroyed_witness :
    sWithMesh.default_texture ∉
      (load_model sWithMesh (ParseOutcome.ok aNoGeom)).destroyedImages ∧
    sWithMesh.default_texture_view ∉
      (load_model sWithMesh (ParseOutcome.ok aNoGeom)).destroyedViews ∧
    (meshA.texture ∈
        (load_model sWithMesh (ParseOutcome.ok aNoGeom)).destroyedImages ↔
      meshA.texture ≠ sWithMesh.default_texture) ∧
    (cleanup sWithMesh).destroyedImages.count sWithMesh.default_texture
      = 1 ∧
    (cleanup sWithMesh).destroyedViews.count sWithMesh.default_texture_view
      = 1 := by
  have h := default_texture_never_destroyed sWithMesh aNoGeom (by
    intro msh hm
    simp only [sWithMesh, s0, List.mem_singleton] at hm
    subst hm
    intro _
    simp [meshA, sWithMesh, s0])
  exact ⟨h.1, h.2.1,
    h.2.2.1 meshA (by simp [sWithMesh, s0]),
    h.2.2.2.1, h.2.2.2.2⟩

end VRMViewer
